import Mathlib

/-!
Verification of the browser-cookie exporter's decryption and binary-format
decoding engine, shallowly embedded from the Python source
(scripts/export_all_cookies.py).  Bytes are modelled as natural numbers
below 256 in lists; fallible operations return Option or Except; external
library calls (AES primitives from pycryptodome, codec and datetime
behaviour of the Python runtime) are abstract function parameters gathered
in the Prims structure, except PBKDF2-HMAC-SHA1, which is embedded
concretely from its published standard because the key-derivation claim
is about its output.
-/

namespace CookieExport

/-- Canonical cookie record built by every export path: mirrors the dicts
appended to the cookies lists in the Python source. -/
structure Cookie where
  browser : String
  domain : String
  name : String
  value : String
  path : String
  expires : String
  secure : Bool
  httponly : Bool
  samesite : Int
deriving DecidableEq

/-- Abstract interfaces for the external library calls made by the source:
AES-CBC decryption (pycryptodome AES.new MODE_CBC then decrypt, where the
Option models a raised ValueError, e.g. for a bad key or ciphertext length),
AES-GCM authenticated decryption (decrypt_and_verify, where none models any
raised exception, in particular an authentication-tag mismatch), the Windows
DPAPI unprotect-and-strictly-decode fallback (none models any exception in
that nested try block), the lossy UTF-8 codec (bytes.decode with
errors replace, which never raises), and the Mac-epoch timestamp formatting
used by the Safari parser (datetime(2001,1,1) plus timedelta(seconds) then
strftime, applied to the IEEE-754 double whose little-endian bit pattern is
the argument; none models a raised OverflowError or similar). -/
structure Prims where
  aesCBCdec : List Nat → List Nat → List Nat → Option (List Nat)
  aesGCMdec : List Nat → List Nat → List Nat → List Nat → Option (List Nat)
  dpapiDecode : List Nat → Option String
  utf8Lossy : List Nat → String
  macEpochFmt : Nat → Option String

/-- The three marker bytes of a v10 envelope, the ASCII literal v10. -/
def v10marker : List Nat := [118, 49, 48]

/-- The three marker bytes of a v11 envelope, the ASCII literal v11. -/
def v11marker : List Nat := [118, 49, 49]

/-- Python slice l[:-p] for a nonnegative p: removes the last p elements,
except that p = 0 yields the empty list (since l[:-0] is l[:0]). -/
def pyDropLast (l : List Nat) (p : Nat) : List Nat :=
  if p = 0 then [] else l.take (l.length - p)

/-- Body of the try block of decrypt_cookie_value: version dispatch on the
three leading bytes, the v10 AES-CBC branch with its padding strip and
32-byte prefix drop, the v11 AES-GCM branch, and the fallback branch.
An error value models an exception reaching the enclosing except clause. -/
def decryptInner (P : Prims) (isWindows : Bool) (ev k : List Nat) :
    Except Unit String :=
  if ev.take 3 = v10marker then
    match P.aesCBCdec k (List.replicate 16 32) (ev.drop 3) with
    | none => .error ()
    | some decrypted =>
      match decrypted.getLast? with
      | none => .error ()
      | some padding_len =>
        let d1 := if padding_len < 16 then pyDropLast decrypted padding_len
                  else decrypted
        let d2 := if 32 < d1.length then d1.drop 32 else d1
        .ok (P.utf8Lossy d2)
  else if ev.take 3 = v11marker then
    match P.aesGCMdec k ((ev.drop 3).take 12)
        ((ev.take (ev.length - 16)).drop 15) (ev.drop (ev.length - 16)) with
    | none => .error ()
    | some pt => .ok (P.utf8Lossy pt)
  else
    if isWindows then
      match P.dpapiDecode ev with
      | some s => .ok s
      | none => .ok (P.utf8Lossy ev)
    else .ok (P.utf8Lossy ev)

/-- decrypt_cookie_value: returns the empty string for a falsy blob or key,
otherwise runs the version-dispatched decoder and converts any exception
(error value of decryptInner) into the empty string. -/
def decrypt_cookie_value (P : Prims) (isWindows : Bool) (ev : List Nat)
    (key : Option (List Nat)) : String :=
  match key with
  | none => ""
  | some k =>
    if ev.isEmpty || k.isEmpty then ""
    else
      match decryptInner P isWindows ev k with
      | .ok s => s
      | .error _ => ""

/-- Post-processing of the v10 plaintext as the specification phrases it:
strip trailing padding by removing padding-length bytes from the end
exactly when the last byte is below the block size 16, then drop the
leading 32 bytes exactly when more than 32 bytes remain.  Removing p
trailing bytes is written with take; this is the natural reading of
the claim and differs from the Python slice at p = 0. -/
def v10SpecPost (d : List Nat) : List Nat :=
  let p := d.getLastD 0
  let d1 := if p < 16 then d.take (d.length - p) else d
  if 32 < d1.length then d1.drop 32 else d1

/-- Post-processing of the v10 plaintext as the code performs it: as
v10SpecPost, except that a padding byte of exactly 0 erases the whole
plaintext (the Python slice l[:-0] is empty). -/
def v10CodePost (d : List Nat) : List Nat :=
  let p := d.getLastD 0
  let d1 := if p < 16 then (if p = 0 then [] else d.take (d.length - p))
            else d
  if 32 < d1.length then d1.drop 32 else d1

/-- Little-endian value of a byte list (least significant byte first),
the integer that struct.unpack with a little-endian format computes. -/
def leNat : List Nat → Nat
  | [] => 0
  | b :: r => b + 256 * leNat r

/-- struct.unpack of a 4-byte little-endian unsigned int from the slice
d[i:i+4]: struct.error (none) unless the slice has exactly 4 bytes. -/
def unpack4 (d : List Nat) (i : Nat) : Option Nat :=
  if i + 4 ≤ d.length then some (leNat ((d.drop i).take 4)) else none

/-- struct.unpack of an 8-byte little-endian field from the slice d[i:i+8],
kept as its 64-bit pattern: struct.error (none) unless exactly 8 bytes. -/
def unpack8 (d : List Nat) (i : Nat) : Option Nat :=
  if i + 8 ≤ d.length then some (leNat ((d.drop i).take 8)) else none

/-- Whether the IEEE-754 double with 64-bit pattern bits compares strictly
greater than zero: positive sign, not a zero, and not a NaN (exponent
field all ones with nonzero fraction).  This is exactly the Python
comparison exp greater than 0 on the unpacked double. -/
def doubleIsPos (bits : Nat) : Bool :=
  decide (bits ≠ 0) && decide (bits < 2 ^ 63) &&
    !(decide (bits / 2 ^ 52 = 2047) && decide (bits % 2 ^ 52 ≠ 0))

/-- Index of the first zero byte of a list, if any. -/
def findNulIdx : List Nat → Option Nat
  | [] => none
  | b :: r => if b = 0 then some 0 else (findNulIdx r).map (· + 1)

/-- Python bytes.find of a NUL byte starting at position o: absolute index
of the first zero byte at position o or later, none for Python's -1. -/
def pyFindNul (d : List Nat) (o : Nat) : Option Nat :=
  (findNulIdx (d.drop o)).map (· + o)

/-- The read_str closure of parse_safari_page: finds the next NUL from
offset o and lossily decodes d[o:end]; when no NUL is found Python's find
yields -1 and the slice d[o:-1] stops one byte before the end of the
buffer, so no exception is raised. -/
def read_str (u8 : List Nat → String) (d : List Nat) (o : Nat) : String :=
  match pyFindNul d o with
  | some e => u8 ((d.take e).drop o)
  | none => u8 ((d.take (d.length - 1)).drop o)

/-- Parse of one Safari cookie record addressed by offset off into the page
buffer: the try body of the record loop of parse_safari_page.  none models
any exception (struct.error from a short slice, or an error raised while
converting a positive expiry), which makes the loop skip this record. -/
def parseRecord (P : Prims) (data : List Nat) (off : Nat) : Option Cookie :=
  let d := data.drop off
  match unpack4 d 8 with
  | none => none
  | some flags =>
    match unpack4 d 16, unpack4 d 20, unpack4 d 24, unpack4 d 28 with
    | some url_off, some name_off, some path_off, some val_off =>
      match unpack8 d 40 with
      | none => none
      | some expBits =>
        match (if doubleIsPos expBits then P.macEpochFmt expBits
               else some "Session") with
        | none => none
        | some exp_str =>
          some { browser := "Safari"
                 domain := read_str P.utf8Lossy d url_off
                 name := read_str P.utf8Lossy d name_off
                 value := read_str P.utf8Lossy d val_off
                 path := read_str P.utf8Lossy d path_off
                 expires := exp_str
                 secure := (flags &&& 1) != 0
                 httponly := (flags &&& 4) != 0
                 samesite := 0 }
    | _, _, _, _ => none

/-- The fixed page magic of the paged container. -/
def pageMagic : List Nat := [0, 0, 1, 0]

/-- The offset-table list comprehension: one 4-byte little-endian offset
per record starting at byte 8; a short slice raises (none) and the
exception escapes parse_safari_page. -/
def readOffsets (data : List Nat) (num : Nat) : Option (List Nat) :=
  (List.range num).mapM (fun i => unpack4 data (8 + 4 * i))

/-- The record loop of parse_safari_page: walks the offset table, appends
each successfully parsed record and skips (continue) any offset whose
record raises. -/
def recLoop (P : Prims) (data : List Nat) : List Nat → List Cookie → List Cookie
  | [], acc => acc
  | off :: rest, acc =>
    match parseRecord P data off with
    | none => recLoop P data rest acc
    | some c => recLoop P data rest (acc ++ [c])

/-- parse_safari_page: empty result when the page magic is absent,
otherwise read the record count and offset table (an exception there, an
error value, escapes to the caller) and run the record loop. -/
def parse_safari_page (P : Prims) (data : List Nat) :
    Except Unit (List Cookie) :=
  if data.take 4 ≠ pageMagic then .ok []
  else match unpack4 data 4 with
    | none => .error ()
    | some num =>
      match readOffsets data num with
      | none => .error ()
      | some offsets => .ok (recLoop P data offsets [])

/-- Value of the 4-byte little-endian word at byte offset i of buffer d,
written positionally as the specification describes the record header
layout (out-of-range bytes read as 0; only used under a bounds premise). -/
def le32At (d : List Nat) (i : Nat) : Nat :=
  d.getD i 0 + 256 * d.getD (i + 1) 0 + 65536 * d.getD (i + 2) 0 +
    16777216 * d.getD (i + 3) 0

/-- Value of the 8-byte little-endian field at byte offset i of buffer d,
written positionally as the specification describes the expiry field. -/
def le64At (d : List Nat) (i : Nat) : Nat :=
  d.getD i 0 + 256 * d.getD (i + 1) 0 + 65536 * d.getD (i + 2) 0 +
    16777216 * d.getD (i + 3) 0 + 4294967296 * d.getD (i + 4) 0 +
    1099511627776 * d.getD (i + 5) 0 + 281474976710656 * d.getD (i + 6) 0 +
    72057594037927936 * d.getD (i + 7) 0

/-- Decimal digit character of n modulo 10. -/
def dch (n : Nat) : Char := Nat.digitChar (n % 10)

/-- Four-digit zero-padded decimal rendering, the strftime field that
prints the year of an in-range datetime. -/
def pad4 (n : Nat) : List Char :=
  [dch (n / 1000), dch (n / 100), dch (n / 10), dch n]

/-- Two-digit zero-padded decimal rendering, the strftime fields for
month, day, hour, minute and second. -/
def pad2 (n : Nat) : List Char := [dch (n / 10), dch n]

/-- strftime with format %Y-%m-%d %H:%M:%S on the given calendar fields. -/
def fmtDateTime (y mo d h mi s : Nat) : String :=
  String.mk (pad4 y ++ '-' :: pad2 mo ++ '-' :: pad2 d ++ ' ' :: pad2 h ++
    ':' :: pad2 mi ++ ':' :: pad2 s)

/-- Proleptic-Gregorian date of the day z days after 1970-01-01
(Howard Hinnant's civil-from-days algorithm, the arithmetic behind the
datetime ordinal calendar). -/
def civilFromDays (z0 : Int) : Int × Nat × Nat :=
  let z := z0 + 719468
  let era := z.fdiv 146097
  let doe := (z - era * 146097).toNat
  let yoe := (doe - doe / 1460 + doe / 36524 - doe / 146096) / 365
  let y : Int := (yoe : Int) + era * 400
  let doy := doe - (365 * yoe + yoe / 4 - yoe / 100)
  let mp := (5 * doy + 2) / 153
  let d := doy - (153 * mp + 2) / 5 + 1
  let m := if mp < 10 then mp + 3 else mp - 9
  (y + (if m ≤ 2 then 1 else 0), m, d)

/-- Models datetime(1601,1,1) + timedelta(microseconds=ts) followed by
strftime of %Y-%m-%d %H:%M:%S, for an integer microsecond count ts, per
CPython semantics: timedelta normalizes to whole days (floor division)
plus a nonnegative remainder and raises OverflowError when the day count
exceeds 999999999 in magnitude; adding to the datetime raises
OverflowError unless the resulting ordinal stays within year 1 to 9999
(ordinal of 1601-01-01 is 584389, the maximal ordinal is 3652059);
strftime drops the microsecond remainder.  none models a raised
exception. -/
def chromeConvert (ts : Int) : Option String :=
  let days := ts.fdiv 86400000000
  let remUs := (ts - 86400000000 * days).toNat
  if days.natAbs > 999999999 then none
  else
    let ord := 584389 + days
    if ord < 1 ∨ 3652059 < ord then none
    else
      let (y, m, d) := civilFromDays (ord - 719163)
      let secs := remUs / 1000000
      some (fmtDateTime y.toNat m d (secs / 3600) (secs / 60 % 60) (secs % 60))

/-- chrome_timestamp_to_datetime: the Session sentinel for a zero
timestamp, otherwise the conversion with Unknown for any raised error. -/
def chrome_timestamp_to_datetime (ts : Int) : String :=
  if ts = 0 then "Session"
  else
    match chromeConvert ts with
    | some s => s
    | none => "Unknown"

/-- Shape of a %Y-%m-%d %H:%M:%S rendering: 19 characters with dashes,
a space and colons at the fixed positions and decimal digits elsewhere. -/
def DtShape (s : String) : Prop :=
  s.data.length = 19 ∧
  s.data.getD 4 'x' = '-' ∧ s.data.getD 7 'x' = '-' ∧
  s.data.getD 10 'x' = ' ' ∧ s.data.getD 13 'x' = ':' ∧
  s.data.getD 16 'x' = ':' ∧
  ∀ i ∈ [0, 1, 2, 3, 5, 6, 8, 9, 11, 12, 14, 15, 17, 18],
    (s.data.getD i 'x').isDigit = true

/-- One row of the Firefox moz_cookies projection, as fetched from the
relational store. -/
structure FfRow where
  host : String
  name : String
  value : String
  path : String
  expiry : Int
  secure : Int
  httponly : Int
  samesite : Int
deriving DecidableEq

/-- Cookie record built from a Firefox row with an already-resolved
expiry string. -/
def ffCookie (r : FfRow) (es : String) : Cookie :=
  { browser := "Firefox", domain := r.host, name := r.name,
    value := r.value, path := r.path, expires := es,
    secure := r.secure != 0, httponly := r.httponly != 0,
    samesite := r.samesite }

/-- The Firefox row loop of export_firefox_cookies for one profile: each
row with falsy (zero) expiry is appended with the Session sentinel; a
truthy expiry is passed to datetime.fromtimestamp plus strftime (the
abstract fmt argument, local-timezone dependent; none models a raised
exception) and a raised exception aborts the loop via the enclosing
bare except, keeping only the cookies appended so far. -/
def ff_process (fmt : Int → Option String) :
    List FfRow → List Cookie → List Cookie
  | [], acc => acc
  | r :: rest, acc =>
    if r.expiry = 0 then ff_process fmt rest (acc ++ [ffCookie r "Session"])
    else
      match fmt r.expiry with
      | none => acc
      | some es => ff_process fmt rest (acc ++ [ffCookie r es])

/-- The aggregation performed by main: starting from an empty list, extend
with each Chromium browser's records in discovery order (each under a
non-emptiness guard, as in the source), then with the Safari records,
then with the Firefox records. -/
def aggregate (chromium : List (List Cookie)) (safari firefox : List Cookie) :
    List Cookie :=
  let l1 := chromium.foldl (fun acc cs => if cs.isEmpty then acc else acc ++ cs) []
  let l2 := if safari.isEmpty then l1 else l1 ++ safari
  if firefox.isEmpty then l2 else l2 ++ firefox

/-- Left rotation of a 32-bit word by k positions (for 1 ≤ k ≤ 31 and an
input below 2 to the 32): the shifted-out high bits land in the low
positions, which the low part leaves zero, so plain addition combines
them. -/
def rotl32 (x k : Nat) : Nat :=
  (x * 2 ^ k) % 4294967296 + x / 2 ^ (32 - k)

/-- SHA-1 round function f of round t. -/
def sha1F (t b c d : Nat) : Nat :=
  if t < 20 then (b &&& c) ||| ((b ^^^ 4294967295) &&& d)
  else if t < 40 then b ^^^ c ^^^ d
  else if t < 60 then (b &&& c) ||| (b &&& d) ||| (c &&& d)
  else b ^^^ c ^^^ d

/-- SHA-1 round constant K of round t. -/
def sha1K (t : Nat) : Nat :=
  if t < 20 then 1518500249
  else if t < 40 then 1859775393
  else if t < 60 then 2400959708
  else 3395469782

/-- Big-endian 32-bit words of a byte list (groups of four bytes). -/
def bytesToWords : List Nat → List Nat
  | a :: b :: c :: d :: rest =>
    (16777216 * a + 65536 * b + 256 * c + d) :: bytesToWords rest
  | _ => []

/-- Message-schedule extension: prepends n new words to the reversed word
list acc, each the rotation by one of the exclusive or of the words 3, 8,
14 and 16 positions back. -/
def extendW : Nat → List Nat → List Nat
  | 0, acc => acc
  | n + 1, acc =>
    let w := rotl32 ((acc.getD 2 0) ^^^ (acc.getD 7 0) ^^^ (acc.getD 13 0)
      ^^^ (acc.getD 15 0)) 1
    extendW n (w :: acc)

/-- The 80 message-schedule words of one 16-word block. -/
def sha1Words (block16 : List Nat) : List Nat :=
  (extendW 64 block16.reverse).reverse

/-- One SHA-1 round on the five-register state. -/
def sha1Round (st : Nat × Nat × Nat × Nat × Nat) (t w : Nat) :
    Nat × Nat × Nat × Nat × Nat :=
  ((rotl32 st.1 5 + sha1F t st.2.1 st.2.2.1 st.2.2.2.1 + st.2.2.2.2 +
      sha1K t + w) % 4294967296,
    st.1, rotl32 st.2.1 30, st.2.2.1, st.2.2.2.1)

/-- SHA-1 compression of one 16-word block into the chaining state. -/
def sha1Block (h : Nat × Nat × Nat × Nat × Nat) (block16 : List Nat) :
    Nat × Nat × Nat × Nat × Nat :=
  let st := (sha1Words block16).enum.foldl
    (fun st tw => sha1Round st tw.1 tw.2) h
  ((h.1 + st.1) % 4294967296, (h.2.1 + st.2.1) % 4294967296,
    (h.2.2.1 + st.2.2.1) % 4294967296, (h.2.2.2.1 + st.2.2.2.1) % 4294967296,
    (h.2.2.2.2 + st.2.2.2.2) % 4294967296)

/-- Big-endian 8-byte rendering of a 64-bit length value. -/
def be64 (n : Nat) : List Nat :=
  [n / 72057594037927936 % 256, n / 281474976710656 % 256,
   n / 1099511627776 % 256, n / 4294967296 % 256, n / 16777216 % 256,
   n / 65536 % 256, n / 256 % 256, n % 256]

/-- Big-endian 4-byte rendering of a 32-bit block index. -/
def be32 (n : Nat) : List Nat :=
  [n / 16777216 % 256, n / 65536 % 256, n / 256 % 256, n % 256]

/-- SHA-1 padding: a 0x80 byte, zeros up to 56 modulo 64, and the bit
length as a big-endian 64-bit value. -/
def sha1Pad (m : List Nat) : List Nat :=
  m ++ 128 :: List.replicate ((120 - (m.length + 1) % 64) % 64) 0 ++
    be64 (8 * m.length)

/-- The padded message cut into 16-word blocks. -/
def toBlocks : List Nat → List (List Nat)
  | [] => []
  | x :: rest => bytesToWords ((x :: rest).take 64) :: toBlocks (rest.drop 63)
termination_by l => l.length
decreasing_by
  simp only [List.length_drop, List.length_cons]
  omega

/-- SHA-1 digest of a byte list: 20 bytes, the big-endian rendering of the
five final state words. -/
def sha1 (m : List Nat) : List Nat :=
  let st := (toBlocks (sha1Pad m)).foldl sha1Block
    (1732584193, 4023233417, 2562383102, 271733878, 3285377520)
  [st.1 / 16777216 % 256, st.1 / 65536 % 256, st.1 / 256 % 256, st.1 % 256,
   st.2.1 / 16777216 % 256, st.2.1 / 65536 % 256, st.2.1 / 256 % 256,
   st.2.1 % 256,
   st.2.2.1 / 16777216 % 256, st.2.2.1 / 65536 % 256, st.2.2.1 / 256 % 256,
   st.2.2.1 % 256,
   st.2.2.2.1 / 16777216 % 256, st.2.2.2.1 / 65536 % 256,
   st.2.2.2.1 / 256 % 256, st.2.2.2.1 % 256,
   st.2.2.2.2 / 16777216 % 256, st.2.2.2.2 / 65536 % 256,
   st.2.2.2.2 / 256 % 256, st.2.2.2.2 % 256]

/-- HMAC-SHA1 with the standard 64-byte block: a long key is hashed first,
the key is zero-padded, and the inner and outer pads are exclusive ors
with 0x36 and 0x5c. -/
def hmacSha1 (key msg : List Nat) : List Nat :=
  let k0 := if 64 < key.length then sha1 key else key
  let kp := k0 ++ List.replicate (64 - k0.length) 0
  sha1 ((kp.map (fun b => b ^^^ 92)) ++ sha1 ((kp.map (fun b => b ^^^ 54)) ++ msg))

/-- Iteration loop of one PBKDF2 block: n further applications of the
pseudorandom function, folding each output into the running exclusive or. -/
def pbkdfIter (pw : List Nat) : Nat → List Nat → List Nat → List Nat
  | 0, _, t => t
  | n + 1, u, t =>
    let u2 := hmacSha1 pw u
    pbkdfIter pw n u2 (List.zipWith (fun a b => a ^^^ b) t u2)

/-- Block i of PBKDF2-HMAC-SHA1 with c iterations. -/
def pbkdfBlock (pw salt : List Nat) (c i : Nat) : List Nat :=
  let u1 := hmacSha1 pw (salt ++ be32 i)
  pbkdfIter pw (c - 1) u1 u1

/-- PBKDF2-HMAC-SHA1, the hashlib.pbkdf2_hmac function the source calls
with the sha1 hash name, embedded per its published standard (RFC 2898):
enough 20-byte blocks are concatenated and the result truncated to the
requested length. -/
def pbkdf2_hmac_sha1 (pw salt : List Nat) (c dklen : Nat) : List Nat :=
  (((List.range ((dklen + 19) / 20)).map
    (fun i => pbkdfBlock pw salt c (i + 1))).flatten).take dklen

/-- The fixed salt literal saltysalt shared by the macOS and Linux key
derivations. -/
def saltysalt : List Nat := [115, 97, 108, 116, 121, 115, 97, 108, 116]

/-- The fixed fallback secret peanuts of the Linux derivation. -/
def peanuts : List Nat := [112, 101, 97, 110, 117, 116, 115]

/-- Key derivation of get_macos_key: PBKDF2-HMAC-SHA1 over the keychain
password with salt saltysalt, 1003 iterations and a 16-byte output. -/
def macosDeriveKey (password : List Nat) : List Nat :=
  pbkdf2_hmac_sha1 password saltysalt 1003 16

/-- Key derivation of get_linux_key for a secret-service password: one
iteration, salt saltysalt, 16-byte output. -/
def linuxDeriveKey (password : List Nat) : List Nat :=
  pbkdf2_hmac_sha1 password saltysalt 1 16

/-- The fixed Linux fallback key derived from the literal peanuts. -/
def linuxFallbackKey : List Nat := linuxDeriveKey peanuts

/-- Concrete byte-to-text codec used to instantiate the abstract lossy
decoder in witnesses: each byte becomes the character of its code point. -/
def demoU8 (bs : List Nat) : String := String.mk (bs.map Char.ofNat)

/-- Concrete primitive instantiation whose cipher calls succeed and return
the ciphertext unchanged; used to exercise the decoder pipelines at
concrete inputs. -/
def PDemo : Prims :=
  { aesCBCdec := fun _ _ ct => some ct
    aesGCMdec := fun _ _ ct _ => some ct
    dpapiDecode := fun _ => none
    utf8Lossy := demoU8
    macEpochFmt := fun bits => some (toString bits) }

/-- Concrete primitive instantiation whose cipher and conversion calls all
fail; models a tag mismatch, a cipher error or a timestamp overflow at
concrete inputs. -/
def PFail : Prims :=
  { aesCBCdec := fun _ _ _ => none
    aesGCMdec := fun _ _ _ _ => none
    dpapiDecode := fun _ => none
    utf8Lossy := demoU8
    macEpochFmt := fun _ => none }

/-- A 16-byte key for decoder witnesses. -/
def demoKey : List Nat := List.replicate 16 7

/-- One well-formed 56-byte Safari record: flags 5 (secure and httponly),
string offsets 48, 50, 52, 54 pointing at NUL-terminated one-character
strings, and a zero expiry double. -/
def sampleRecord : List Nat :=
  [0, 0, 0, 0, 0, 0, 0, 0,
   5, 0, 0, 0,
   0, 0, 0, 0,
   48, 0, 0, 0,
   50, 0, 0, 0,
   52, 0, 0, 0,
   54, 0, 0, 0,
   0, 0, 0, 0, 0, 0, 0, 0,
   0, 0, 0, 0, 0, 0, 0, 0,
   97, 0, 110, 0, 112, 0, 118, 0]

/-- A valid one-record page: page magic, record count 1, offset table
entry 12, then the record. -/
def samplePage : List Nat :=
  pageMagic ++ [1, 0, 0, 0] ++ [12, 0, 0, 0] ++ sampleRecord

/-- The same page with the final NUL cut off, leaving the value string
with no NUL terminator within the buffer. -/
def noNulPage : List Nat :=
  pageMagic ++ [1, 0, 0, 0] ++ [12, 0, 0, 0] ++ sampleRecord.take 55

/-- The same page with the expiry double replaced by -1.0 (little-endian
pattern of 0xBFF0000000000000): a nonzero stored expiry. -/
def negExpPage : List Nat :=
  pageMagic ++ [1, 0, 0, 0] ++ [12, 0, 0, 0] ++
    (sampleRecord.take 40 ++ [0, 0, 0, 0, 0, 0, 240, 191] ++ sampleRecord.drop 48)

/-- The same page with the expiry double replaced by positive infinity
(little-endian pattern of 0x7FF0000000000000), a strictly positive double
whose conversion to a datetime raises OverflowError. -/
def infExpPage : List Nat :=
  pageMagic ++ [1, 0, 0, 0] ++ [12, 0, 0, 0] ++
    (sampleRecord.take 40 ++ [0, 0, 0, 0, 0, 0, 240, 127] ++ sampleRecord.drop 48)

/-- The cookie record that the sample page parses to under demoU8. -/
def sampleCookie : Cookie :=
  { browser := "Safari", domain := "a", name := "n", value := "v",
    path := "p", expires := "Session", secure := true, httponly := true,
    samesite := 0 }

/-- A 16-byte v10 ciphertext whose decryption (identity under PDemo) ends
in the byte 0: padding length 0. -/
def c1cipher : List Nat := [1, 1, 1, 1, 1, 1, 1, 1, 1, 1, 1, 1, 1, 1, 5, 0]

/-- A v10 envelope around c1cipher. -/
def c1blob : List Nat := v10marker ++ c1cipher

/-- A v11 envelope: marker, 12-byte nonce, 2-byte ciphertext, 16-byte tag. -/
def c2blob : List Nat :=
  v11marker ++ List.replicate 12 9 ++ [104, 105] ++ List.replicate 16 0

end CookieExport

deriving instance DecidableEq for Except

namespace CookieExport

lemma take3_ne_nil {ev m : List Nat} (hm : m.length = 3) (h : ev.take 3 = m) :
    ev.isEmpty = false := by
  cases ev with
  | nil => subst h; simp at hm
  | cons a t => rfl

lemma decrypt_some (P : Prims) (w : Bool) (ev k : List Nat)
    (hev : ev.isEmpty = false) (hk : k.isEmpty = false) :
    decrypt_cookie_value P w ev (some k) =
      match decryptInner P w ev k with
      | .ok s => s
      | .error _ => "" := by
  simp [decrypt_cookie_value, hev, hk]

lemma v10_pipeline_eq (P : Prims) (w : Bool) (ev k d : List Nat)
    (h3 : ev.take 3 = v10marker)
    (hd : P.aesCBCdec k (List.replicate 16 32) (ev.drop 3) = some d)
    (hne : d ≠ []) (hkk : k.isEmpty = false) :
    decrypt_cookie_value P w ev (some k) = P.utf8Lossy (v10CodePost d) := by
  have hev : ev.isEmpty = false := take3_ne_nil (by rfl) h3
  have hlast : d.getLast? = some (d.getLast hne) := List.getLast?_eq_getLast d hne
  have hlastD : d.getLastD 0 = d.getLast hne := by
    rw [List.getLastD_eq_getLast?, hlast]
    rfl
  have hinner : decryptInner P w ev k = .ok (P.utf8Lossy (v10CodePost d)) := by
    simp only [decryptInner, if_pos h3, hd, hlast, v10CodePost, hlastD,
      pyDropLast]
  rw [decrypt_some P w ev k hev hkk, hinner]

/-- C1 (corrected): for a v10-marked blob and a 16-byte key whose AES-CBC
decryption under the all-space IV succeeds with a nonempty plaintext, the
decoder returns the lossy UTF-8 decoding of the plaintext after the padding
strip and the conditional 32-byte prefix drop — where a padding byte of
exactly 0 erases the whole plaintext (the slice by -0) instead of leaving
it unchanged; the strip happens exactly when the last byte is below 16 and
the prefix drop exactly when more than 32 bytes remain. -/
theorem c1_v10_pipeline (P : Prims) (w : Bool) (ev k d : List Nat)
    (h3 : ev.take 3 = v10marker) (hk : k.length = 16)
    (hd : P.aesCBCdec k (List.replicate 16 32) (ev.drop 3) = some d)
    (hne : d ≠ []) :
    decrypt_cookie_value P w ev (some k) = P.utf8Lossy (v10CodePost d) :=
  v10_pipeline_eq P w ev k d h3 hd hne
    (by cases k with
        | nil => simp at hk
        | cons a t => rfl)

/-- C1 counterexample: at a concrete v10 blob whose decrypted plaintext is
16 bytes ending in the byte 0, the decoder does not return the decoding of
the plaintext with zero trailing bytes stripped (the claim's reading of the
padding strip), because the Python slice by -0 empties the plaintext. -/
theorem c1_counterexample :
    c1blob.take 3 = v10marker ∧ demoKey.length = 16 ∧
    PDemo.aesCBCdec demoKey (List.replicate 16 32) (c1blob.drop 3) =
      some c1cipher ∧
    c1cipher.getLastD 0 < 16 ∧
    decrypt_cookie_value PDemo false c1blob (some demoKey) ≠
      PDemo.utf8Lossy (v10SpecPost c1cipher) := by
  refine ⟨by decide, by decide, by decide, by decide, ?_⟩
  decide

/-- C1 witness: the amended pipeline theorem applied at the concrete blob. -/
theorem c1_witness :
    decrypt_cookie_value PDemo false c1blob (some demoKey) =
      PDemo.utf8Lossy (v10CodePost c1cipher) :=
  c1_v10_pipeline PDemo false c1blob demoKey c1cipher (by decide) (by decide)
    (by decide) (by decide)

/-- C2: for a v11-marked blob and a nonempty key, the decoder performs the
AES-GCM authenticated decryption with nonce bytes[3:15], ciphertext
bytes[15:-16] and the last 16 bytes as tag, applies no padding step, and
lossily UTF-8 decodes the plaintext (with the empty string on failure). -/
theorem c2_v11_layout (P : Prims) (w : Bool) (ev k : List Nat)
    (h3 : ev.take 3 = v11marker) (hk : k ≠ []) :
    decrypt_cookie_value P w ev (some k) =
      match P.aesGCMdec k ((ev.take 15).drop 3)
          ((ev.drop 15).take (ev.length - 31))
          (ev.drop (ev.length - 16)) with
      | some pt => P.utf8Lossy pt
      | none => "" := by
  have hev : ev.isEmpty = false := take3_ne_nil (by rfl) h3
  have hkk : k.isEmpty = false := by cases k with
    | nil => exact absurd rfl hk
    | cons a t => rfl
  rw [decrypt_some P w ev k hev hkk]
  have h10 : ¬ ev.take 3 = v10marker := by
    rw [h3]; decide
  rw [decryptInner, if_neg h10, if_pos h3]
  have hnonce : (ev.drop 3).take 12 = (ev.take 15).drop 3 :=
    List.take_drop 3 12 ev
  have hct : (ev.take (ev.length - 16)).drop 15 =
      (ev.drop 15).take (ev.length - 31) := by
    rcases le_or_lt ev.length 31 with hle | hlt
    · have h1 : ((ev.take (ev.length - 16)).drop 15).length = 0 := by
        simp only [List.length_drop, List.length_take]
        omega
      have h2 : ((ev.drop 15).take (ev.length - 31)).length = 0 := by
        simp only [List.length_take, List.length_drop]
        omega
      rw [List.length_eq_zero] at h1 h2
      rw [h1, h2]
    · have harith : ev.length - 16 = 15 + (ev.length - 31) := by omega
      rw [harith, ← List.take_drop 15 (ev.length - 31) ev]
  rw [hnonce, hct]
  cases hg : P.aesGCMdec k (List.drop 3 (List.take 15 ev))
      (List.take (ev.length - 31) (List.drop 15 ev))
      (List.drop (ev.length - 16) ev) with
  | none => rfl
  | some pt => rfl

/-- C2 witness: the layout theorem applied at a concrete v11 envelope. -/
theorem c2_witness :
    decrypt_cookie_value PDemo false c2blob (some [1]) =
      match PDemo.aesGCMdec [1] ((c2blob.take 15).drop 3)
          ((c2blob.drop 15).take (c2blob.length - 31))
          (c2blob.drop (c2blob.length - 16)) with
      | some pt => PDemo.utf8Lossy pt
      | none => "" :=
  c2_v11_layout PDemo false c2blob [1] (by decide) (by decide)

/-- C3: the envelope decoder is a total function that returns the empty
string unless the version-dispatched body succeeded (so no decoding
failure ever escapes), and in particular a v11 envelope whose
authenticated decryption fails — for instance through a flipped tag bit —
yields the empty string. -/
theorem c3_no_exception_escape (P : Prims) (w : Bool) (ev : List Nat)
    (key : Option (List Nat)) :
    (decrypt_cookie_value P w ev key = "" ∨
      ∃ k s, key = some k ∧ decryptInner P w ev k = .ok s ∧
        decrypt_cookie_value P w ev key = s) ∧
    (∀ k, key = some k → k ≠ [] → ev.take 3 = v11marker →
      P.aesGCMdec k ((ev.drop 3).take 12)
        ((ev.take (ev.length - 16)).drop 15)
        (ev.drop (ev.length - 16)) = none →
      decrypt_cookie_value P w ev key = "") := by
  constructor
  · match key with
    | none => exact Or.inl rfl
    | some k =>
      by_cases hev : ev.isEmpty
      · exact Or.inl (by simp [decrypt_cookie_value, hev])
      · by_cases hk : k.isEmpty
        · exact Or.inl (by simp [decrypt_cookie_value, hk])
        · rw [decrypt_some P w ev k (by simpa using hev) (by simpa using hk)]
          cases h : decryptInner P w ev k with
          | error e => exact Or.inl rfl
          | ok s => exact Or.inr ⟨k, s, rfl, h, rfl⟩
  · rintro k rfl hk h3 hgcm
    have hev : ev.isEmpty = false := take3_ne_nil (by rfl) h3
    have hkk : k.isEmpty = false := by cases k with
      | nil => exact absurd rfl hk
      | cons a t => rfl
    rw [decrypt_some P w ev k hev hkk]
    have h10 : ¬ ev.take 3 = v10marker := by rw [h3]; decide
    rw [decryptInner, if_neg h10, if_pos h3, hgcm]

/-- C3 witness: a concrete v11 envelope whose tag verification fails
decodes to the empty string. -/
theorem c3_witness :
    decrypt_cookie_value PFail false c2blob (some [1]) = "" :=
  (c3_no_exception_escape PFail false c2blob (some [1])).2 [1] rfl
    (by decide) (by decide) (by decide)

/-- C10: when the AES-CBC plaintext of a v10 envelope ends in the byte 0,
the padding strip slices with length zero from the end, which produces the
empty byte string, and the decoder returns the empty value although no
error occurred. -/
theorem c10_zero_padding_byte (P : Prims) (w : Bool) (ev k d : List Nat)
    (h3 : ev.take 3 = v10marker) (hk : k.length = 16)
    (hd : P.aesCBCdec k (List.replicate 16 32) (ev.drop 3) = some d)
    (hlast : d.getLast? = some 0) (hu : P.utf8Lossy [] = "") :
    pyDropLast d 0 = [] ∧ decrypt_cookie_value P w ev (some k) = "" := by
  refine ⟨rfl, ?_⟩
  have hne : d ≠ [] := by
    intro h; rw [h] at hlast; simp at hlast
  have hkk : k.isEmpty = false := by
    cases k with
    | nil => simp at hk
    | cons a t => rfl
  rw [v10_pipeline_eq P w ev k d h3 hd hne hkk]
  have hpost : v10CodePost d = [] := by
    simp [v10CodePost, List.getLastD_eq_getLast?, hlast]
  rw [hpost, hu]

/-- C10 witness: the theorem applied at the concrete v10 blob whose
plaintext ends in a zero byte. -/
theorem c10_witness :
    pyDropLast c1cipher 0 = [] ∧
    decrypt_cookie_value PDemo false c1blob (some demoKey) = "" :=
  c10_zero_padding_byte PDemo false c1blob demoKey c1cipher (by decide)
    (by decide) (by decide) (by decide) (by decide)

lemma aggregate_foldl (cs : List (List Cookie)) (acc : List Cookie) :
    cs.foldl (fun acc l => if l.isEmpty then acc else acc ++ l) acc =
      acc ++ cs.flatten := by
  induction cs generalizing acc with
  | nil => simp
  | cons c rest ih =>
    rw [List.foldl_cons, List.flatten_cons]
    by_cases hc : c.isEmpty
    · obtain rfl : c = [] := List.isEmpty_iff.mp hc
      rw [if_pos hc, ih acc]
      simp
    · rw [if_neg hc, ih (acc ++ c), List.append_assoc]

lemma count_flatten (x : Cookie) (cs : List (List Cookie)) :
    cs.flatten.count x = (cs.map (fun l => l.count x)).sum := by
  induction cs with
  | nil => rfl
  | cons c rest ih => simp [List.count_append, ih]

/-- C8: main's aggregation is the concatenation of the per-browser
Chromium record lists in order, then the Safari records, then the Firefox
records, each record kept verbatim; nothing is deduplicated, so the
multiplicity of any record in the output is the sum of its multiplicities
across all sources. -/
theorem c8_aggregation_order (cs : List (List Cookie))
    (safari firefox : List Cookie) :
    aggregate cs safari firefox = cs.flatten ++ safari ++ firefox ∧
    ∀ x : Cookie, (aggregate cs safari firefox).count x =
      (cs.map (fun l => l.count x)).sum + safari.count x + firefox.count x := by
  have h1 : aggregate cs safari firefox = cs.flatten ++ safari ++ firefox := by
    simp only [aggregate]
    rw [aggregate_foldl cs []]
    by_cases hs : safari.isEmpty <;> by_cases hf : firefox.isEmpty <;>
      simp_all [List.isEmpty_iff, List.append_assoc]
  refine ⟨h1, fun x => ?_⟩
  rw [h1]
  simp [List.count_append, count_flatten, Nat.add_assoc]

lemma sha1_length (m : List Nat) : (sha1 m).length = 20 := rfl

lemma hmacSha1_length (k m : List Nat) : (hmacSha1 k m).length = 20 :=
  sha1_length _

lemma pbkdfIter_length (pw : List Nat) :
    ∀ (n : Nat) (u t : List Nat), t.length = 20 →
      (pbkdfIter pw n u t).length = 20 := by
  intro n
  induction n with
  | zero => intro u t ht; exact ht
  | succ m ih =>
    intro u t ht
    rw [pbkdfIter]
    apply ih
    rw [List.length_zipWith, ht, hmacSha1_length]
    rfl

lemma pbkdfBlock_length (pw salt : List Nat) (c i : Nat) :
    (pbkdfBlock pw salt c i).length = 20 :=
  pbkdfIter_length pw (c - 1) _ _ (hmacSha1_length _ _)

lemma pbkdf2_length (pw salt : List Nat) (c dklen : Nat) :
    (pbkdf2_hmac_sha1 pw salt c dklen).length = dklen := by
  have hfl : (((List.range ((dklen + 19) / 20)).map
      (fun i => pbkdfBlock pw salt c (i + 1))).flatten).length =
      20 * ((dklen + 19) / 20) := by
    induction ((dklen + 19) / 20) with
    | zero => rfl
    | succ m ih =>
      rw [List.range_succ, List.map_append, List.flatten_append,
        List.length_append, ih]
      simp [pbkdfBlock_length]
      omega
  rw [pbkdf2_hmac_sha1, List.length_take, hfl]
  have := Nat.div_add_mod (dklen + 19) 20
  have h2 : (dklen + 19) % 20 < 20 := Nat.mod_lt _ (by omega)
  omega

/-- C9: key derivation is deterministic and fixed-length: the macOS and
Linux derivations always produce 16-byte keys, PBKDF2-HMAC-SHA1 always
produces exactly the requested output length, and equal secrets always
yield byte-identical keys. -/
theorem c9_key_derivation (s t : List Nat) :
    ((macosDeriveKey s).length = 16 ∧ (linuxDeriveKey s).length = 16 ∧
      linuxFallbackKey.length = 16 ∧
      ∀ (salt : List Nat) (c dklen : Nat),
        (pbkdf2_hmac_sha1 s salt c dklen).length = dklen) ∧
    (s = t → macosDeriveKey s = macosDeriveKey t ∧
      linuxDeriveKey s = linuxDeriveKey t) := by
  refine ⟨⟨pbkdf2_length _ _ _ _, pbkdf2_length _ _ _ _,
    pbkdf2_length _ _ _ _, fun salt c dklen => pbkdf2_length _ _ _ _⟩, ?_⟩
  rintro rfl
  exact ⟨rfl, rfl⟩

/-- C9 witness: the derivation theorem applied to the concrete fallback
secret. -/
theorem c9_witness :
    (macosDeriveKey peanuts).length = 16 ∧
    macosDeriveKey peanuts = macosDeriveKey peanuts :=
  ⟨(c9_key_derivation peanuts peanuts).1.1,
    ((c9_key_derivation peanuts peanuts).2 rfl).1⟩

lemma getD_drop (d : List Nat) : ∀ (i j : Nat),
    (d.drop i).getD j 0 = d.getD (i + j) 0 := by
  induction d with
  | nil => intro i j; simp
  | cons a t ih =>
    intro i j
    cases i with
    | zero => simp
    | succ m =>
      rw [Nat.succ_add, List.drop_succ_cons, List.getD_cons_succ]
      exact ih m j

lemma take4_eq (l : List Nat) (h : 4 ≤ l.length) :
    l.take 4 = [l.getD 0 0, l.getD 1 0, l.getD 2 0, l.getD 3 0] := by
  rcases l with _ | ⟨a, _ | ⟨b, _ | ⟨c, _ | ⟨e, rest⟩⟩⟩⟩
  · simp at h
  · simp at h
  · simp at h
  · simp at h
  · rfl

lemma take8_eq (l : List Nat) (h : 8 ≤ l.length) :
    l.take 8 = [l.getD 0 0, l.getD 1 0, l.getD 2 0, l.getD 3 0,
      l.getD 4 0, l.getD 5 0, l.getD 6 0, l.getD 7 0] := by
  rcases l with _ | ⟨a0, _ | ⟨a1, _ | ⟨a2, _ | ⟨a3, _ | ⟨a4, _ | ⟨a5,
    _ | ⟨a6, _ | ⟨a7, rest⟩⟩⟩⟩⟩⟩⟩⟩
  · simp at h
  · simp at h
  · simp at h
  · simp at h
  · simp at h
  · simp at h
  · simp at h
  · simp at h
  · rfl

lemma leNat_take4 (d : List Nat) (i : Nat) (h : i + 4 ≤ d.length) :
    leNat ((d.drop i).take 4) = le32At d i := by
  have hl : 4 ≤ (d.drop i).length := by
    rw [List.length_drop]; omega
  rw [take4_eq _ hl]
  simp only [leNat, le32At, getD_drop, Nat.add_zero]
  ring

lemma leNat_take8 (d : List Nat) (i : Nat) (h : i + 8 ≤ d.length) :
    leNat ((d.drop i).take 8) = le64At d i := by
  have hl : 8 ≤ (d.drop i).length := by
    rw [List.length_drop]; omega
  rw [take8_eq _ hl]
  simp only [leNat, le64At, getD_drop, Nat.add_zero]
  ring

lemma unpack4_eq_some {d : List Nat} {i v : Nat} (h : unpack4 d i = some v) :
    i + 4 ≤ d.length ∧ v = le32At d i := by
  unfold unpack4 at h
  split at h
  · next hc =>
    exact ⟨hc, by rw [← leNat_take4 d i hc]; exact (Option.some.inj h).symm⟩
  · exact absurd h (by simp)

lemma unpack8_eq_some {d : List Nat} {i v : Nat} (h : unpack8 d i = some v) :
    i + 8 ≤ d.length ∧ v = le64At d i := by
  unfold unpack8 at h
  split at h
  · next hc =>
    exact ⟨hc, by rw [← leNat_take8 d i hc]; exact (Option.some.inj h).symm⟩
  · exact absurd h (by simp)

lemma and_one_bne (n : Nat) : ((n &&& 1) != 0) = n.testBit 0 := by
  have h : n &&& 1 = (n.testBit 0).toNat * 1 := by
    have := Nat.and_two_pow n 0
    simpa using this
  rw [h]
  cases n.testBit 0 <;> rfl

lemma and_four_bne (n : Nat) : ((n &&& 4) != 0) = n.testBit 2 := by
  have h : n &&& 4 = (n.testBit 2).toNat * 4 := by
    have := Nat.and_two_pow n 2
    norm_num at this
    exact this
  rw [h]
  cases n.testBit 2 <;> rfl

lemma take_findNul (l : List Nat) (h : 0 ∈ l) :
    ∃ k, findNulIdx l = some k ∧ l.take k = l.takeWhile (· != 0) := by
  induction l with
  | nil => simp at h
  | cons a t ih =>
    by_cases ha : a = 0
    · subst ha
      exact ⟨0, by simp [findNulIdx], by simp [List.takeWhile_cons]⟩
    · have h2 : 0 ∈ t := by
        rcases List.mem_cons.mp h with h1 | h1
        · exact absurd h1.symm ha
        · exact h1
      obtain ⟨k, hk1, hk2⟩ := ih h2
      refine ⟨k + 1, ?_, ?_⟩
      · simp [findNulIdx, ha, hk1]
      · have hane : (a != 0) = true := by simp [ha]
        simp [List.take_succ_cons, List.takeWhile_cons, hane, hk2]

lemma read_str_nul (u8 : List Nat → String) (d : List Nat) (o : Nat)
    (h : 0 ∈ d.drop o) :
    read_str u8 d o = u8 ((d.drop o).takeWhile (· != 0)) := by
  obtain ⟨k, hk1, hk2⟩ := take_findNul (d.drop o) h
  rw [read_str, pyFindNul, hk1]
  show u8 ((d.take (k + o)).drop o) = u8 ((d.drop o).takeWhile (· != 0))
  congr 1
  rw [← hk2, List.take_drop o k d, Nat.add_comm k o]

lemma parseRecord_inv (P : Prims) (data : List Nat) (off : Nat) (c : Cookie)
    (hp : parseRecord P data off = some c) :
    48 ≤ (data.drop off).length ∧
    ∃ es, (if doubleIsPos (le64At (data.drop off) 40)
           then P.macEpochFmt (le64At (data.drop off) 40)
           else some "Session") = some es ∧
      c = { browser := "Safari"
            domain := read_str P.utf8Lossy (data.drop off)
              (le32At (data.drop off) 16)
            name := read_str P.utf8Lossy (data.drop off)
              (le32At (data.drop off) 20)
            value := read_str P.utf8Lossy (data.drop off)
              (le32At (data.drop off) 28)
            path := read_str P.utf8Lossy (data.drop off)
              (le32At (data.drop off) 24)
            expires := es
            secure := ((le32At (data.drop off) 8) &&& 1) != 0
            httponly := ((le32At (data.drop off) 8) &&& 4) != 0
            samesite := 0 } := by
  simp only [parseRecord] at hp
  cases h8 : unpack4 (data.drop off) 8 with
  | none => simp only [h8] at hp; exact absurd hp (by simp)
  | some flags =>
  simp only [h8] at hp
  cases h16 : unpack4 (data.drop off) 16 with
  | none => simp only [h16] at hp; exact absurd hp (by simp)
  | some url_off =>
  cases h20 : unpack4 (data.drop off) 20 with
  | none => simp only [h16, h20] at hp; exact absurd hp (by simp)
  | some name_off =>
  cases h24 : unpack4 (data.drop off) 24 with
  | none => simp only [h16, h20, h24] at hp; exact absurd hp (by simp)
  | some path_off =>
  cases h28 : unpack4 (data.drop off) 28 with
  | none => simp only [h16, h20, h24, h28] at hp; exact absurd hp (by simp)
  | some val_off =>
  simp only [h16, h20, h24, h28] at hp
  cases h40 : unpack8 (data.drop off) 40 with
  | none => simp only [h40] at hp; exact absurd hp (by simp)
  | some expBits =>
  simp only [h40] at hp
  obtain ⟨hb8, rfl⟩ := unpack4_eq_some h8
  obtain ⟨hb16, rfl⟩ := unpack4_eq_some h16
  obtain ⟨hb20, rfl⟩ := unpack4_eq_some h20
  obtain ⟨hb24, rfl⟩ := unpack4_eq_some h24
  obtain ⟨hb28, rfl⟩ := unpack4_eq_some h28
  obtain ⟨hb40, rfl⟩ := unpack8_eq_some h40
  refine ⟨by omega, ?_⟩
  cases hif : (if doubleIsPos (le64At (data.drop off) 40)
      then P.macEpochFmt (le64At (data.drop off) 40)
      else some "Session") with
  | none => simp only [hif] at hp; exact absurd hp (by simp)
  | some es =>
    simp only [hif, Option.some.injEq] at hp
    exact ⟨es, rfl, hp.symm⟩

lemma recLoop_eq (P : Prims) (data : List Nat) :
    ∀ (offs : List Nat) (acc : List Cookie),
      recLoop P data offs acc = acc ++ offs.filterMap (parseRecord P data) := by
  intro offs
  induction offs with
  | nil => intro acc; simp [recLoop]
  | cons o rest ih =>
    intro acc
    cases hp : parseRecord P data o with
    | none => simp [recLoop, hp, ih, List.filterMap_cons]
    | some c => simp [recLoop, hp, ih, List.filterMap_cons]

lemma filterMap_erase_none (f : Nat → Option Cookie) (off : Nat)
    (hf : f off = none) :
    ∀ offs : List Nat, (offs.erase off).filterMap f = offs.filterMap f := by
  intro offs
  induction offs with
  | nil => rfl
  | cons a rest ih =>
    by_cases ha : a = off
    · subst ha
      rw [List.erase_cons_head]
      simp [List.filterMap_cons, hf]
    · rw [List.erase_cons_tail (by simpa using ha)]
      cases hfa : f a <;> simp [List.filterMap_cons, hfa, ih]

lemma parse_page_ok (P : Prims) (data : List Nat) (num : Nat)
    (offs : List Nat) (h1 : data.take 4 = pageMagic)
    (h2 : unpack4 data 4 = some num) (h3 : readOffsets data num = some offs) :
    parse_safari_page P data = .ok (offs.filterMap (parseRecord P data)) := by
  unfold parse_safari_page
  rw [if_neg (fun hne => hne h1)]
  simp only [h2, h3]
  rw [recLoop_eq]
  simp

/-- C4: for a record that a page parse produced, the parser read the
4-byte little-endian flags word at byte offset 8 of the record buffer and
the four little-endian string offsets at byte offsets 16, 20, 24 and 28,
took an 8-byte little-endian expiry at byte offset 40 (so the buffer holds
at least 48 bytes), decoded the secure flag as bit 0 and the httponly flag
as bit 2 of the flags word, and resolved each string field by scanning
forward from its offset to the next NUL byte (present by hypothesis) and
decoding lossily. -/
theorem c4_record_layout (P : Prims) (data : List Nat) (off : Nat)
    (c : Cookie) (hp : parseRecord P data off = some c)
    (hdu : 0 ∈ (data.drop off).drop (le32At (data.drop off) 16))
    (hdn : 0 ∈ (data.drop off).drop (le32At (data.drop off) 20))
    (hdp : 0 ∈ (data.drop off).drop (le32At (data.drop off) 24))
    (hdv : 0 ∈ (data.drop off).drop (le32At (data.drop off) 28)) :
    48 ≤ (data.drop off).length ∧
    c.secure = (le32At (data.drop off) 8).testBit 0 ∧
    c.httponly = (le32At (data.drop off) 8).testBit 2 ∧
    c.domain = P.utf8Lossy
      (((data.drop off).drop (le32At (data.drop off) 16)).takeWhile (· != 0)) ∧
    c.name = P.utf8Lossy
      (((data.drop off).drop (le32At (data.drop off) 20)).takeWhile (· != 0)) ∧
    c.path = P.utf8Lossy
      (((data.drop off).drop (le32At (data.drop off) 24)).takeWhile (· != 0)) ∧
    c.value = P.utf8Lossy
      (((data.drop off).drop (le32At (data.drop off) 28)).takeWhile (· != 0)) ∧
    (doubleIsPos (le64At (data.drop off) 40) = true →
      P.macEpochFmt (le64At (data.drop off) 40) = some c.expires) ∧
    (doubleIsPos (le64At (data.drop off) 40) = false →
      c.expires = "Session") := by
  obtain ⟨hlen, es, hes, rfl⟩ := parseRecord_inv P data off c hp
  refine ⟨hlen, and_one_bne _, and_four_bne _, read_str_nul _ _ _ hdu,
    read_str_nul _ _ _ hdn, read_str_nul _ _ _ hdp, read_str_nul _ _ _ hdv,
    ?_, ?_⟩
  · intro hpos
    rw [if_pos hpos] at hes
    exact hes
  · intro hneg
    have hcond : ¬ (doubleIsPos (le64At (data.drop off) 40) = true) := by
      simp [hneg]
    rw [if_neg hcond] at hes
    exact (Option.some.inj hes).symm

/-- C4 witness: the layout theorem applied to the sample page at record
offset 12. -/
theorem c4_witness :
    48 ≤ (samplePage.drop 12).length ∧
    sampleCookie.secure = (le32At (samplePage.drop 12) 8).testBit 0 ∧
    sampleCookie.domain = PDemo.utf8Lossy
      (((samplePage.drop 12).drop
        (le32At (samplePage.drop 12) 16)).takeWhile (· != 0)) := by
  have h := c4_record_layout PDemo samplePage 12 sampleCookie (by decide)
    (by decide) (by decide) (by decide) (by decide)
  exact ⟨h.1, h.2.1, h.2.2.2.1⟩

/-- C5 (corrected): in a page whose header and offset table decode, the
output is the per-offset record parse with failing offsets dropped, so a
record whose parse raises (short slices from an out-of-range offset, or a
failed expiry conversion) is skipped while every other offset is
unaffected (erasing a failing offset does not change the output); however
a string field with no NUL terminator does not raise — the record is still
produced with that field cut at one byte before the buffer end. -/
theorem c5_record_skip_isolation (P : Prims) (data : List Nat) (num : Nat)
    (offs : List Nat) (h1 : data.take 4 = pageMagic)
    (h2 : unpack4 data 4 = some num) (h3 : readOffsets data num = some offs) :
    parse_safari_page P data = .ok (offs.filterMap (parseRecord P data)) ∧
    ∀ off, parseRecord P data off = none →
      (offs.erase off).filterMap (parseRecord P data) =
        offs.filterMap (parseRecord P data) :=
  ⟨parse_page_ok P data num offs h1 h2 h3,
    fun off hoff => filterMap_erase_none _ off hoff offs⟩

/-- C5 counterexample: a page whose single record has a value string with
no NUL terminator within the buffer still yields that record (with the
value cut one byte before the buffer end), instead of skipping it as the
claim states. -/
theorem c5_counterexample :
    0 ∉ ((noNulPage.drop 12).drop (le32At (noNulPage.drop 12) 28)) ∧
    parse_safari_page PDemo noNulPage =
      .ok [{ sampleCookie with value := "" }] :=
  ⟨by decide, by decide⟩

/-- C5 witness: the amended skip theorem applied to the sample page. -/
theorem c5_witness :
    parse_safari_page PDemo samplePage =
      .ok ([12].filterMap (parseRecord PDemo samplePage)) :=
  (c5_record_skip_isolation PDemo samplePage 1 [12] (by decide) (by decide)
    (by decide)).1

/-- C6 (corrected): a parsed record carries the Session sentinel exactly
when its stored expiry double is not strictly greater than zero (zero,
negative, or NaN — the source tests exp greater than 0, not equality with
zero); a strictly positive expiry is passed to the Mac-epoch conversion
and its result becomes the expiry string. -/
theorem c6_expiry_dispatch (P : Prims) (data : List Nat) (off : Nat)
    (c : Cookie) (hp : parseRecord P data off = some c) :
    (doubleIsPos (le64At (data.drop off) 40) = false →
      c.expires = "Session") ∧
    (doubleIsPos (le64At (data.drop off) 40) = true →
      P.macEpochFmt (le64At (data.drop off) 40) = some c.expires) := by
  obtain ⟨hlen, es, hes, rfl⟩ := parseRecord_inv P data off c hp
  constructor
  · intro hneg
    have hcond : ¬ (doubleIsPos (le64At (data.drop off) 40) = true) := by
      simp [hneg]
    rw [if_neg hcond] at hes
    exact (Option.some.inj hes).symm
  · intro hpos
    rw [if_pos hpos] at hes
    exact hes

/-- C6 counterexample: a record whose stored expiry double is -1.0 (bit
pattern 0xBFF0000000000000, not a zero encoding) still maps to the Session
sentinel, contradicting the claim that Session appears exactly when the
stored expiry is zero. -/
theorem c6_counterexample :
    parse_safari_page PDemo negExpPage = .ok [sampleCookie] ∧
    sampleCookie.expires = "Session" ∧
    ¬(le64At (negExpPage.drop 12) 40 = 0 ∨
      le64At (negExpPage.drop 12) 40 = 9223372036854775808) :=
  ⟨by decide, rfl, by decide⟩

/-- C6 witness: the dispatch theorem applied to the sample page record,
whose expiry double is zero. -/
theorem c6_witness : sampleCookie.expires = "Session" :=
  (c6_expiry_dispatch PDemo samplePage 12 sampleCookie (by decide)).1
    (by decide)

lemma digit_lt_ten : ∀ m, m < 10 → (Nat.digitChar m).isDigit = true := by
  decide

lemma dch_isDigit (n : Nat) : (dch n).isDigit = true :=
  digit_lt_ten (n % 10) (Nat.mod_lt n (by decide))

lemma fmt_shape (y mo d h mi s : Nat) : DtShape (fmtDateTime y mo d h mi s) := by
  refine ⟨rfl, rfl, rfl, rfl, rfl, rfl, ?_⟩
  intro i hi
  fin_cases hi <;> exact dch_isDigit _

lemma chromeConvert_shape (ts : Int) (s : String)
    (h : chromeConvert ts = some s) : DtShape s := by
  simp only [chromeConvert] at h
  split at h
  · exact absurd h (by simp)
  · split at h
    · exact absurd h (by simp)
    · rcases hc : civilFromDays (584389 + ts.fdiv 86400000000 - 719163) with
        ⟨y, m, d⟩
      rw [hc] at h
      simp only [Option.some.injEq] at h
      rw [← h]
      exact fmt_shape _ _ _ _ _ _

/-- C7 (corrected): the three epoch conventions agree on the Session
sentinel for a zero or absent input, but diverge on conversion failure:
under the 1601-microseconds convention a failure yields the string Unknown
and a success yields a string of shape YYYY-MM-DD HH:MM:SS; under the
Mac-epoch convention of the paged container a failed conversion skips the
whole record (a produced record implies the conversion succeeded), never
producing Unknown; and under the Unix-seconds convention a failed
conversion aborts the remaining rows of that store, keeping only the
records already accumulated, again never producing Unknown. -/
theorem c7_timestamp_normalizer :
    (chrome_timestamp_to_datetime 0 = "Session") ∧
    (∀ ts : Int, ts ≠ 0 → chromeConvert ts = none →
      chrome_timestamp_to_datetime ts = "Unknown") ∧
    (∀ (ts : Int) (s : String), ts ≠ 0 → chromeConvert ts = some s →
      chrome_timestamp_to_datetime ts = s ∧ DtShape s) ∧
    (∀ (P : Prims) (data : List Nat) (off : Nat) (c : Cookie),
      parseRecord P data off = some c →
      (doubleIsPos (le64At (data.drop off) 40) = false →
        c.expires = "Session") ∧
      (doubleIsPos (le64At (data.drop off) 40) = true →
        ∃ es, P.macEpochFmt (le64At (data.drop off) 40) = some es)) ∧
    (∀ (fmt : Int → Option String) (r : FfRow) (rest : List FfRow)
        (acc : List Cookie), r.expiry = 0 →
      ff_process fmt (r :: rest) acc =
        ff_process fmt rest (acc ++ [ffCookie r "Session"])) ∧
    (∀ (fmt : Int → Option String) (r : FfRow) (rest : List FfRow)
        (acc : List Cookie), r.expiry ≠ 0 → fmt r.expiry = none →
      ff_process fmt (r :: rest) acc = acc) := by
  refine ⟨rfl, ?_, ?_, ?_, ?_, ?_⟩
  · intro ts h1 h2
    rw [chrome_timestamp_to_datetime, if_neg h1, h2]
  · intro ts s h1 h2
    refine ⟨?_, chromeConvert_shape ts s h2⟩
    rw [chrome_timestamp_to_datetime, if_neg h1, h2]
  · intro P data off c hp
    obtain ⟨hlen, es, hes, rfl⟩ := parseRecord_inv P data off c hp
    constructor
    · intro hneg
      have hcond : ¬ (doubleIsPos (le64At (data.drop off) 40) = true) := by
        simp [hneg]
      rw [if_neg hcond] at hes
      exact (Option.some.inj hes).symm
    · intro hpos
      rw [if_pos hpos] at hes
      exact ⟨es, hes⟩
  · intro fmt r rest acc h
    simp [ff_process, h]
  · intro fmt r rest acc h1 h2
    simp [ff_process, h1, h2]

/-- C7 counterexample: a record whose expiry double is positive infinity
is attempted for conversion and the conversion fails, yet the page parse
yields no record at all — no record with the expiry string Unknown is ever
produced on the paged-container path, contradicting the claim that a
conversion failure yields Unknown for that record. -/
theorem c7_counterexample :
    doubleIsPos (le64At (infExpPage.drop 12) 40) = true ∧
    PFail.macEpochFmt (le64At (infExpPage.drop 12) 40) = none ∧
    parse_safari_page PFail infExpPage = .ok [] :=
  ⟨by decide, rfl, by decide⟩

/-- C7 witness: the amended normalizer theorem applied at a concrete
out-of-range 1601-microseconds timestamp. -/
theorem c7_witness :
    chrome_timestamp_to_datetime 1000000000000000000 = "Unknown" :=
  c7_timestamp_normalizer.2.1 1000000000000000000 (by decide) (by decide)

end CookieExport
